import Mathlib

/-
Verification of the log-tailer repository: a shallow embedding of the
file-tailing, classification and audit-forwarding logic, together with
theorems settling the specification claims.

The tailer implementation embedded here is the hand-rolled revision of
internal/tailer/tailer.go (the one with the open-retry loop, the manual
read loop, the 5s rotation-check ticker and the fsnotify-to-ticker
fallback), which is the revision the specification's FileTailer and
GlobWatcher sections describe.  The audit sink is embedded from
internal/auditlogger/auditlogger.go.

External collaborators (encoding/json, the filesystem, fsnotify, the
remote logging client) are modelled as parameters or as explicit outcome
types; all repository logic is concrete and executable.
-/

/-- JSON values, the data model of one parsed log line
(Go `map[string]interface{}` entries; numbers are abstracted as integers
since no code path inspects a numeric field). -/
inductive JVal where
  | null
  | boolean (b : Bool)
  | number (n : Int)
  | str (s : String)
  | arr (elems : List JVal)
  | obj (fields : List (String × JVal))

/-- A parsed log entry: mapping from string key to JSON value
(Go `map[string]interface{}`; keys produced by json.Unmarshal are unique). -/
abbrev LogEntry := List (String × JVal)

/-- First-match lookup of a field of a log entry (Go map indexing). -/
def lookupField : LogEntry → String → Option JVal
  | [], _ => none
  | (k, v) :: rest, key => if k = key then some v else lookupField rest key

/-- Go `entry[key].(string)`: the field value when it exists and is a string. -/
def getStr (e : LogEntry) (key : String) : Option String :=
  match lookupField e key with
  | some (JVal.str s) => some s
  | _ => none

/-- Go `strings.HasPrefix`. -/
def hasPrefixStr (s pre : String) : Bool := pre.toList.isPrefixOf s.toList

/-- Go `strings.HasSuffix`. -/
def hasSuffixStr (s suf : String) : Bool := suf.toList.isSuffixOf s.toList

/-- Go `strings.TrimPrefix`. -/
def trimPrefixStr (s pre : String) : String :=
  if hasPrefixStr s pre then ⟨s.toList.drop pre.toList.length⟩ else s

/-- Go `strings.TrimSuffix`. -/
def trimSuffixStr (s suf : String) : String :=
  if hasSuffixStr s suf then ⟨s.toList.take (s.toList.length - suf.toList.length)⟩ else s

/-- Go `strings.Split(s, ",")` on the underlying character list. -/
def splitCommaList : List Char → List (List Char)
  | [] => [[]]
  | c :: rest =>
    let r := splitCommaList rest
    if c = ',' then [] :: r
    else
      match r with
      | [] => [[c]]
      | hd :: tl => (c :: hd) :: tl

/-- Go `strings.Split(s, ",")`. -/
def splitStrComma (s : String) : List String :=
  (splitCommaList s.toList).map (fun l => ⟨l⟩)

/-- tailer.go: `truncatedLength = 200`. -/
def truncatedLength : Nat := 200

/-- tailer.go Tail: the excerpt logged for an unparseable line
(`if len(truncatedLine) > truncatedLength { truncatedLine = truncatedLine[:truncatedLength] }`). -/
def truncateLine (line : String) : String :=
  if line.toList.length > truncatedLength then ⟨line.toList.take truncatedLength⟩ else line

/-- tailer.go Tail: `line = strings.TrimSuffix(line, "\n")` then
`strings.TrimSuffix(line, "\r")` applied to one line returned by ReadString. -/
def trimNewline (raw : String) : String :=
  trimSuffixStr (trimSuffixStr raw "\n") "\r"

/-- Result of processing one complete raw line in tailer.go Tail's read loop. -/
inductive LineResult where
  | skippedEmpty
  | warned (truncatedLine : String)
  | toAudit (entry : LogEntry)
  | toPass (line : String)

/-- tailer.go Tail, per-line processing: trim the line terminator, skip empty
lines, attempt JSON parsing (json.Unmarshal is the `parse` parameter), warn
and drop on failure, otherwise dispatch on the `message` field's
`AUDIT:` prefix. -/
def processLine (parse : String → Option LogEntry) (raw : String) : LineResult :=
  if trimNewline raw = "" then .skippedEmpty
  else
    match parse (trimNewline raw) with
    | none => .warned (truncateLine (trimNewline raw))
    | some logEntry =>
      match getStr logEntry "message" with
      | some message =>
        if hasPrefixStr message "AUDIT:" then .toAudit logEntry
        else .toPass (trimNewline raw)
      | none => .toPass (trimNewline raw)

/-- The entries, lines and warnings produced by a run of the read loop. -/
structure TailOutput where
  audits : List LogEntry
  passes : List String
  warns : List String

/-- tailer.go Tail's read loop over a sequence of complete raw lines:
each line is processed by `processLine` and the loop continues with the rest. -/
def runTail (parse : String → Option LogEntry) : List String → TailOutput
  | [] => { audits := [], passes := [], warns := [] }
  | raw :: rest =>
    let out := runTail parse rest
    match processLine parse raw with
    | .skippedEmpty => out
    | .warned w => { out with warns := w :: out.warns }
    | .toAudit e => { out with audits := e :: out.audits }
    | .toPass l => { out with passes := l :: out.passes }

/-- The classifier condition of tailer.go Tail: the entry has a `message`
field whose value is a string beginning with `AUDIT:`. -/
def isAuditMessage (e : LogEntry) : Bool :=
  match getStr e "message" with
  | some m => hasPrefixStr m "AUDIT:"
  | none => false

/-- auditlogger.go: `auditPrefix := "AUDIT: "`. -/
def auditPrefixStr : String := "AUDIT: "

/-- One conditional label insertion of auditlogger.go sendToGCP:
`if v, ok := ...; ok && v != "" { labels[key] = v }`. -/
def optLabel (key : String) (v : Option String) : List (String × String) :=
  match v with
  | some s => if s = "" then [] else [(key, s)]
  | none => []

/-- auditlogger.go sendToGCP, the positional labels parsed from the message:
strip the `"AUDIT: "` prefix, split by comma, take positions 0, 3 and 4 as
auditType, auditClass and command when present and non-empty. -/
def auditMessageLabels (message : String) : List (String × String) :=
  if hasPrefixStr message auditPrefixStr then
    optLabel "auditType" (splitStrComma (trimPrefixStr message auditPrefixStr))[0]?
      ++ optLabel "auditClass" (splitStrComma (trimPrefixStr message auditPrefixStr))[3]?
      ++ optLabel "command" (splitStrComma (trimPrefixStr message auditPrefixStr))[4]?
  else []

/-- auditlogger.go sendToGCP: the message-derived labels, guarded by the
`message` field being a string (`if message, ok := logEntry["message"].(string); ok`). -/
def msgLabels (e : LogEntry) : List (String × String) :=
  match getStr e "message" with
  | some m => auditMessageLabels m
  | none => []

/-- auditlogger.go sendToGCP, the full labels map in insertion order:
databaseId always, then user, databaseName (from dbname), the positional
message labels, and backendType (from backend_type). -/
def mkEntryLabels (projectID clusterName : String) (e : LogEntry) : List (String × String) :=
  ("databaseId", projectID ++ ":" ++ clusterName)
    :: (optLabel "user" (getStr e "user")
      ++ optLabel "databaseName" (getStr e "dbname")
      ++ msgLabels e
      ++ optLabel "backendType" (getStr e "backend_type"))

/-- First-match lookup in a labels list (a Go string map with distinct keys). -/
def lookupLabel : List (String × String) → String → Option String
  | [], _ => none
  | (k, v) :: rest, key => if k = key then some v else lookupLabel rest key

/-- cloud.google.com/go/logging severity values used by the program. -/
inductive Severity where
  | debug
  | info
  | warning
  | error
  deriving DecidableEq

/-- google.golang.org/genproto monitoredres.MonitoredResource. -/
structure MonitoredResource where
  rtype : String
  labels : List (String × String)
  deriving DecidableEq

/-- cloud.google.com/go/logging Entry as populated by sendToGCP. -/
structure GCPEntry where
  payload : String
  severity : Severity
  labels : List (String × String)
  resource : MonitoredResource
  deriving DecidableEq

/-- auditlogger.go sendToGCP: the monitored resource
(`type: "generic_node"` with location, namespace, node_id and project_id labels). -/
def mkResource (projectID clusterName : String) : MonitoredResource :=
  { rtype := "generic_node"
    labels := [("location", "europe-north1"), ("namespace", "postgres-audit"),
      ("node_id", projectID ++ ":" ++ clusterName), ("project_id", projectID)] }

/-- auditlogger.go sendToGCP: the logging.Entry submitted for one audit record;
`marshal` models json.Marshal of the original entry. -/
def mkGCPEntry (marshal : LogEntry → String) (projectID clusterName : String)
    (e : LogEntry) : GCPEntry :=
  { payload := marshal e
    severity := .info
    labels := mkEntryLabels projectID clusterName e
    resource := mkResource projectID clusterName }

/-- Calls made on the remote logging client by the audit logger. -/
inductive SinkAction where
  | log (entry : GCPEntry)
  | flush
  deriving DecidableEq

/-- auditlogger.go sendToGCP: submit the entry, then flush
(`a.googleLogger.Log(entry)` followed by `a.googleLogger.Flush()`). -/
def sendToGCP (marshal : LogEntry → String) (projectID clusterName : String)
    (e : LogEntry) : List SinkAction :=
  [.log (mkGCPEntry marshal projectID clusterName e), .flush]

/-- auditlogger.go Log: the serial consumer loop over incoming audit entries;
each entry is sent (and flushed) before the next is taken. -/
def auditLoggerRun (marshal : LogEntry → String) (projectID clusterName : String) :
    List LogEntry → List SinkAction
  | [] => []
  | e :: es =>
    sendToGCP marshal projectID clusterName e ++ auditLoggerRun marshal projectID clusterName es

/-- The slice of os.FileInfo that checkLogRotation inspects: the size and an
identity token (the inode, compared by os.SameFile). -/
structure FileInfo where
  size : Int
  identity : Nat
  deriving DecidableEq

/-- Go `os.SameFile`: the two stats describe the same file. -/
def sameFile (a b : FileInfo) : Bool := a.identity = b.identity

/-- Outcome of `os.Stat` on a path: an error (with `os.IsNotExist` status) or
a FileInfo. -/
inductive StatResult where
  | statError (notExist : Bool)
  | statOk (info : FileInfo)
  deriving DecidableEq

/-- tailer.go checkLogRotation: nil lastInfo means no rotation; any stat error
is treated as rotation (`if err != nil { return true }`); otherwise rotation
when the identity differs or the size decreased.  The filesystem is the
`statFn` parameter. -/
def checkLogRotation (statFn : String → StatResult) (filePath : String)
    (lastInfo : Option FileInfo) : Bool :=
  match lastInfo with
  | none => false
  | some lastI =>
    match statFn filePath with
    | .statError _ => true
    | .statOk currentI =>
      if !(sameFile lastI currentI) then true
      else if currentI.size < lastI.size then true
      else false

/-- The rotation condition as claim C4 states it, for comparison with
`checkLogRotation`: rotation exactly when a previous observation exists and
the stat reports the file missing, the identity differs, or the size
decreased. -/
def checkLogRotationClaimed (statFn : String → StatResult) (filePath : String)
    (lastInfo : Option FileInfo) : Bool :=
  match lastInfo with
  | none => false
  | some lastI =>
    match statFn filePath with
    | .statError notExist => notExist
    | .statOk currentI => !(sameFile lastI currentI) || decide (currentI.size < lastI.size)

/-- tailer.go Tailer: the per-file tailer handle (channels and logger omitted). -/
structure Tailer where
  filePath : String
  deriving DecidableEq

/-- tailer.go NewTailer: construct the tailer for a path (infallible in this
revision). -/
def NewTailer (filePath : String) : Tailer := { filePath := filePath }

/-- Lookup in the watch set `tailers map[string]*Tailer`. -/
def lookupTailer : List (String × Tailer) → String → Option Tailer
  | [], _ => none
  | (k, t) :: rest, p => if k = p then some t else lookupTailer rest p

/-- tailer.go lookForFiles, the loop over glob matches: spawn a tailer for
every match not already in the watch set and record it; returns the updated
watch set together with the paths spawned in this invocation. -/
def lookForFilesGo : List String → List (String × Tailer) →
    List (String × Tailer) × List String
  | [], ts => (ts, [])
  | m :: ms, ts =>
    match lookupTailer ts m with
    | some _ => lookForFilesGo ms ts
    | none =>
      let r := lookForFilesGo ms ((m, NewTailer m) :: ts)
      (r.fst, m :: r.snd)

/-- Outcome of `filepath.Glob` on the pattern. -/
inductive GlobResult where
  | globError
  | globMatches (paths : List String)

/-- tailer.go lookForFiles: a glob error is returned to the caller, otherwise
the matches are processed; per-file spawning has no failure path in this
revision. -/
def lookForFiles (g : GlobResult) (ts : List (String × Tailer)) :
    Option (List (String × Tailer) × List String) :=
  match g with
  | .globError => none
  | .globMatches ms => some (lookForFilesGo ms ts)

/-- tailer.go: `retryInterval = 5 * time.Second`, in milliseconds. -/
def retryIntervalMs : Nat := 5000

/-- tailer.go: `newFileCheckInterval = 1 * time.Minute`, in milliseconds. -/
def newFileCheckIntervalMs : Nat := 60000

/-- Observable events of the tailer worker's opening phase. -/
inductive TailEvent where
  | logOpenError
  | sleep (ms : Nat)
  | opened
  | quitReport
  deriving DecidableEq

/-- tailer.go Tail, the opening loop (`for { logFile, err = os.Open(...); if
err != nil { log; time.Sleep(retryInterval); continue }; break }`) run against
a file whose first `k` open attempts fail: each failure is logged and followed
by a fixed-interval sleep, then the loop retries; the first success opens. -/
def openPhase : Nat → List TailEvent
  | 0 => [.opened]
  | k + 1 => .logOpenError :: .sleep retryIntervalMs :: openPhase k

/-- The event is an error report on the quit channel. -/
def isQuitEvent : TailEvent → Bool
  | .quitReport => true
  | _ => false

/-- The event is a backoff sleep. -/
def isSleepEvent : TailEvent → Bool
  | .sleep _ => true
  | _ => false

/-- The last event of a trace. -/
def lastEvent : List TailEvent → Option TailEvent
  | [] => none
  | [e] => some e
  | _ :: e :: rest => lastEvent (e :: rest)

/-- Outcome of `fsnotify.NewWatcher()`. -/
inductive WatcherResult where
  | watcherError
  | watcherOk
  deriving DecidableEq

/-- The discovery mode Watch ends up in after setup. -/
inductive WatchMode where
  | tickerMode (intervalMs : Nat)
  | eventMode
  deriving DecidableEq

/-- tailer.go Watch, setup: first resolve the glob and spawn tailers for all
current matches (an error quits); then create the fsnotify watcher — on
failure fall back to the fixed ticker, otherwise use filesystem events.
`none` models an error sent on the quit channel. -/
def watchSetup (g : GlobResult) (w : WatcherResult) (ts : List (String × Tailer)) :
    Option (WatchMode × List (String × Tailer)) :=
  match lookForFiles g ts with
  | none => none
  | some (ts2, _) =>
    match w with
    | .watcherError => some (.tickerMode newFileCheckIntervalMs, ts2)
    | .watcherOk => some (.eventMode, ts2)

/-- tailer.go Watch, ticker fallback loop: on every tick re-resolve the glob
and spawn tailers for new matches; `globs` is the sequence of match lists the
successive re-resolutions produce. -/
def tickerRun : List (List String) → List (String × Tailer) → List (String × Tailer)
  | [], ts => ts
  | g :: gs, ts => tickerRun gs (lookForFilesGo g ts).fst

lemma lookupLabel_append (a b : List (String × String)) (key : String) :
    lookupLabel (a ++ b) key =
      match lookupLabel a key with
      | some v => some v
      | none => lookupLabel b key := by
  induction a with
  | nil => simp [lookupLabel]
  | cons hd tl ih =>
    obtain ⟨k, v⟩ := hd
    by_cases h : k = key <;> simp [lookupLabel, h, ih]

lemma lookupLabel_optLabel (k key : String) (ov : Option String) :
    lookupLabel (optLabel k ov) key =
      if k = key then
        match ov with
        | some s => if s = "" then none else some s
        | none => none
      else none := by
  cases ov with
  | none => simp [optLabel, lookupLabel]
  | some s =>
    by_cases hs : s = "" <;> by_cases hk : k = key <;>
      simp [optLabel, lookupLabel, hs, hk]

lemma lookupLabel_auditMessageLabels_other (m key : String)
    (h1 : ("auditType" : String) ≠ key) (h2 : ("auditClass" : String) ≠ key)
    (h3 : ("command" : String) ≠ key) :
    lookupLabel (auditMessageLabels m) key = none := by
  unfold auditMessageLabels
  by_cases hp : hasPrefixStr m auditPrefixStr <;>
    simp [hp, lookupLabel, lookupLabel_append, lookupLabel_optLabel, h1, h2, h3]

lemma lookupLabel_msgLabels_other (e : LogEntry) (key : String)
    (h1 : ("auditType" : String) ≠ key) (h2 : ("auditClass" : String) ≠ key)
    (h3 : ("command" : String) ≠ key) :
    lookupLabel (msgLabels e) key = none := by
  unfold msgLabels
  cases getStr e "message" with
  | none => simp [lookupLabel]
  | some m => exact lookupLabel_auditMessageLabels_other m key h1 h2 h3

/-- C5: every audit record delivered to the remote sink is submitted with
payload the serialized original entry, severity INFO, labels always containing
databaseId = projectID:clusterName and containing user, databaseName (from
dbname) and backendType (from backend_type) exactly when those fields are
present as non-empty strings, and a generic_node monitored resource with the
location, namespace = postgres-audit, node_id and project_id labels; the sink
flushes after each entry before taking the next. -/
theorem audit_entry_shape_and_flush (marshal : LogEntry → String) (p c : String)
    (e : LogEntry) (es : List LogEntry) :
    (mkGCPEntry marshal p c e).payload = marshal e
    ∧ (mkGCPEntry marshal p c e).severity = Severity.info
    ∧ lookupLabel (mkGCPEntry marshal p c e).labels "databaseId" = some (p ++ ":" ++ c)
    ∧ lookupLabel (mkGCPEntry marshal p c e).labels "user" =
        (match getStr e "user" with
         | some u => if u = "" then none else some u
         | none => none)
    ∧ lookupLabel (mkGCPEntry marshal p c e).labels "databaseName" =
        (match getStr e "dbname" with
         | some d => if d = "" then none else some d
         | none => none)
    ∧ lookupLabel (mkGCPEntry marshal p c e).labels "backendType" =
        (match getStr e "backend_type" with
         | some b => if b = "" then none else some b
         | none => none)
    ∧ (mkGCPEntry marshal p c e).resource =
        { rtype := "generic_node"
          labels := [("location", "europe-north1"), ("namespace", "postgres-audit"),
            ("node_id", p ++ ":" ++ c), ("project_id", p)] }
    ∧ auditLoggerRun marshal p c (e :: es) =
        SinkAction.log (mkGCPEntry marshal p c e) :: SinkAction.flush ::
          auditLoggerRun marshal p c es := by
  refine ⟨rfl, rfl, ?_, ?_, ?_, ?_, rfl, rfl⟩
  · simp [mkGCPEntry, mkEntryLabels, lookupLabel]
  · simp only [mkGCPEntry, mkEntryLabels, lookupLabel, lookupLabel_append,
      lookupLabel_optLabel, lookupLabel_msgLabels_other e "user"
        (by decide) (by decide) (by decide)]
    cases hu : getStr e "user" with
    | none => simp
    | some u => by_cases h : u = "" <;> simp [h]
  · simp only [mkGCPEntry, mkEntryLabels, lookupLabel, lookupLabel_append,
      lookupLabel_optLabel, lookupLabel_msgLabels_other e "databaseName"
        (by decide) (by decide) (by decide)]
    cases hd : getStr e "dbname" with
    | none => simp
    | some d => by_cases h : d = "" <;> simp [h]
  · simp only [mkGCPEntry, mkEntryLabels, lookupLabel, lookupLabel_append,
      lookupLabel_optLabel, lookupLabel_msgLabels_other e "backendType"
        (by decide) (by decide) (by decide)]
    cases hb : getStr e "backend_type" with
    | none => simp
    | some b => by_cases h : b = "" <;> simp [h]

/-- C1: every successfully parsed JSON log line is dispatched to the audit
channel exactly when the entry has a `message` field whose value is a string
beginning with `AUDIT:`; every other successfully parsed line is dispatched to
the passthrough channel; each parsed line goes to exactly one of the two. -/
theorem classify_dispatch_iff_audit (parse : String → Option LogEntry)
    (raw : String) (e : LogEntry) (hne : trimNewline raw ≠ "")
    (hp : parse (trimNewline raw) = some e) :
    (processLine parse raw = .toAudit e ∨ processLine parse raw = .toPass (trimNewline raw))
    ∧ (processLine parse raw = .toAudit e ↔ isAuditMessage e = true)
    ∧ (processLine parse raw = .toPass (trimNewline raw) ↔ isAuditMessage e = false)
    ∧ ¬(processLine parse raw = .toAudit e
        ∧ processLine parse raw = .toPass (trimNewline raw)) := by
  unfold processLine isAuditMessage
  rw [if_neg hne, hp]
  cases hm : getStr e "message" with
  | none => simp [hm]
  | some m =>
    by_cases hpre : hasPrefixStr m "AUDIT:" = true
    · simp [hm, hpre]
    · simp [hm, hpre, Bool.not_eq_true]

/-- Application of classify_dispatch_iff_audit at a concrete parsed audit line. -/
theorem classify_dispatch_iff_audit_app :
    trimNewline "x\n" ≠ ""
    ∧ processLine (fun s => if s = "x" then some [("message", JVal.str "AUDIT: t")] else none)
        "x\n" = .toAudit [("message", JVal.str "AUDIT: t")] := by
  refine ⟨by decide, ?_⟩
  exact (classify_dispatch_iff_audit
    (fun s => if s = "x" then some [("message", JVal.str "AUDIT: t")] else none)
    "x\n" [("message", JVal.str "AUDIT: t")] (by decide) rfl).2.1.mpr rfl

/-- A parse function that rejects every line (any unparseable input). -/
def parseNone : String → Option LogEntry := fun _ => none

lemma runTail_cons (parse : String → Option LogEntry) (raw : String) (rest : List String) :
    runTail parse (raw :: rest) =
      match processLine parse raw with
      | .skippedEmpty => runTail parse rest
      | .warned w => { runTail parse rest with warns := w :: (runTail parse rest).warns }
      | .toAudit e => { runTail parse rest with audits := e :: (runTail parse rest).audits }
      | .toPass l => { runTail parse rest with passes := l :: (runTail parse rest).passes } := by
  cases h : processLine parse raw <;> simp [runTail, h]

lemma processLine_ne_skipped (parse : String → Option LogEntry) (raw : String)
    (hne : trimNewline raw ≠ "") : processLine parse raw ≠ .skippedEmpty := by
  unfold processLine
  rw [if_neg hne]
  cases parse (trimNewline raw) with
  | none => simp
  | some e =>
    cases hm : getStr e "message" with
    | none => simp [hm]
    | some m => by_cases hpre : hasPrefixStr m "AUDIT:" = true <;> simp [hm, hpre]

/-- C3: a non-empty line that fails to parse as JSON produces a warning whose
excerpt is the line truncated to at most 200 characters, reaches neither the
audit channel nor the passthrough channel, and the read loop continues with
the remaining lines. -/
theorem malformed_line_warned_and_dropped (parse : String → Option LogEntry)
    (raw : String) (rest : List String) (hne : trimNewline raw ≠ "")
    (hp : parse (trimNewline raw) = none) :
    processLine parse raw = .warned (truncateLine (trimNewline raw))
    ∧ (truncateLine (trimNewline raw)).toList.length ≤ truncatedLength
    ∧ runTail parse (raw :: rest) =
        { runTail parse rest with
          warns := truncateLine (trimNewline raw) :: (runTail parse rest).warns } := by
  have hproc : processLine parse raw = .warned (truncateLine (trimNewline raw)) := by
    unfold processLine
    rw [if_neg hne, hp]
  refine ⟨hproc, ?_, ?_⟩
  · unfold truncateLine
    by_cases h : (trimNewline raw).toList.length > truncatedLength
    · rw [if_pos h]
      simp
    · rw [if_neg h]
      omega
  · rw [runTail_cons, hproc]

/-- Application of malformed_line_warned_and_dropped at a concrete bad line. -/
theorem malformed_line_warned_and_dropped_app :
    trimNewline "notjson\n" ≠ ""
    ∧ processLine parseNone "notjson\n" = .warned (truncateLine (trimNewline "notjson\n")) := by
  refine ⟨by decide, ?_⟩
  exact (malformed_line_warned_and_dropped parseNone "notjson\n" [] (by decide) rfl).1

/-- C9 counterexample: a complete empty line (just a newline) reaches neither
the audit channel nor the passthrough channel, and no warning or error record
is produced for it — it is skipped silently. -/
theorem silent_empty_line_drop :
    processLine parseNone "\n" = .skippedEmpty
    ∧ runTail parseNone ["\n"] = { audits := [], passes := [], warns := [] } :=
  ⟨rfl, rfl⟩

/-- C9 amended: every complete line whose trimmed content is non-empty and
that reaches neither the audit channel nor the passthrough channel produces a
warning record; only lines that are empty after trimming are dropped silently. -/
theorem nonempty_drop_has_warning (parse : String → Option LogEntry)
    (raw : String) (hne : trimNewline raw ≠ "")
    (hdrop : (runTail parse [raw]).audits = [] ∧ (runTail parse [raw]).passes = []) :
    (runTail parse [raw]).warns ≠ [] := by
  rw [runTail_cons] at hdrop ⊢
  cases hres : processLine parse raw with
  | skippedEmpty => exact absurd hres (processLine_ne_skipped parse raw hne)
  | warned w => simp [runTail]
  | toAudit e => rw [hres] at hdrop; simp [runTail] at hdrop
  | toPass l => rw [hres] at hdrop; simp [runTail] at hdrop

/-- Application of nonempty_drop_has_warning at a concrete unparseable line. -/
theorem nonempty_drop_has_warning_app :
    (runTail parseNone ["bad"]).warns ≠ [] :=
  nonempty_drop_has_warning parseNone "bad" (by decide) ⟨rfl, rfl⟩

/-- C2: for an entry whose `message` starts with `"AUDIT: "`, the extractor
strips that prefix, splits the remainder by comma, and sets auditType from
position 0, auditClass from position 3 and command from position 4, each
exactly when that position exists and is non-empty; short lists and empty
fields only omit the label. -/
theorem audit_extractor_positional_labels (p c : String) (e : LogEntry) (s : String)
    (hm : getStr e "message" = some s) (hp : hasPrefixStr s auditPrefixStr = true) :
    lookupLabel (mkEntryLabels p c e) "auditType" =
      (match (splitStrComma (trimPrefixStr s auditPrefixStr))[0]? with
       | some v => if v = "" then none else some v
       | none => none)
    ∧ lookupLabel (mkEntryLabels p c e) "auditClass" =
      (match (splitStrComma (trimPrefixStr s auditPrefixStr))[3]? with
       | some v => if v = "" then none else some v
       | none => none)
    ∧ lookupLabel (mkEntryLabels p c e) "command" =
      (match (splitStrComma (trimPrefixStr s auditPrefixStr))[4]? with
       | some v => if v = "" then none else some v
       | none => none) := by
  have hmsg : msgLabels e =
      optLabel "auditType" (splitStrComma (trimPrefixStr s auditPrefixStr))[0]?
        ++ optLabel "auditClass" (splitStrComma (trimPrefixStr s auditPrefixStr))[3]?
        ++ optLabel "command" (splitStrComma (trimPrefixStr s auditPrefixStr))[4]? := by
    unfold msgLabels auditMessageLabels
    rw [hm]
    simp [hp]
  refine ⟨?_, ?_, ?_⟩
  · simp only [mkEntryLabels, lookupLabel, lookupLabel_append, lookupLabel_optLabel, hmsg]
    cases h0 : (splitStrComma (trimPrefixStr s auditPrefixStr))[0]? with
    | none => simp
    | some v => by_cases hv : v = "" <;> simp [hv]
  · simp only [mkEntryLabels, lookupLabel, lookupLabel_append, lookupLabel_optLabel, hmsg]
    cases h3 : (splitStrComma (trimPrefixStr s auditPrefixStr))[3]? with
    | none => simp
    | some v => by_cases hv : v = "" <;> simp [hv]
  · simp only [mkEntryLabels, lookupLabel, lookupLabel_append, lookupLabel_optLabel, hmsg]
    cases h4 : (splitStrComma (trimPrefixStr s auditPrefixStr))[4]? with
    | none => simp
    | some v => by_cases hv : v = "" <;> simp [hv]

/-- The spec's first extractor example entry. -/
def exEntrySession : LogEntry :=
  [("message", JVal.str "AUDIT: SESSION,15,1,READ,SELECT,,,SELECT 1")]

/-- The spec's second extractor example entry. -/
def exEntryObject : LogEntry := [("message", JVal.str "AUDIT: OBJECT")]

/-- Application of audit_extractor_positional_labels at the spec's two
examples: the SESSION message yields auditType=SESSION, auditClass=READ,
command=SELECT, and the bare OBJECT message yields only auditType=OBJECT. -/
theorem audit_extractor_positional_labels_app :
    lookupLabel (mkEntryLabels "proj" "cl" exEntrySession) "auditType" = some "SESSION"
    ∧ lookupLabel (mkEntryLabels "proj" "cl" exEntrySession) "auditClass" = some "READ"
    ∧ lookupLabel (mkEntryLabels "proj" "cl" exEntrySession) "command" = some "SELECT"
    ∧ lookupLabel (mkEntryLabels "proj" "cl" exEntryObject) "auditType" = some "OBJECT"
    ∧ lookupLabel (mkEntryLabels "proj" "cl" exEntryObject) "auditClass" = none
    ∧ lookupLabel (mkEntryLabels "proj" "cl" exEntryObject) "command" = none := by
  have h1 := audit_extractor_positional_labels "proj" "cl" exEntrySession
    "AUDIT: SESSION,15,1,READ,SELECT,,,SELECT 1" rfl (by decide)
  have h2 := audit_extractor_positional_labels "proj" "cl" exEntryObject
    "AUDIT: OBJECT" rfl (by decide)
  refine ⟨h1.1.trans (by decide), h1.2.1.trans (by decide), h1.2.2.trans (by decide),
    h2.1.trans (by decide), h2.2.1.trans (by decide), h2.2.2.trans (by decide)⟩

/-- C10: an entry whose `message` starts with `AUDIT:` but not `"AUDIT: "` is
dispatched to the audit channel, yet extraction yields none of the positional
labels auditType, auditClass, command — only databaseId and the sibling-field
labels can appear. -/
theorem audit_no_space_prefix_labels (parse : String → Option LogEntry)
    (p c raw : String) (e : LogEntry) (s : String)
    (hne : trimNewline raw ≠ "") (hparse : parse (trimNewline raw) = some e)
    (hm : getStr e "message" = some s)
    (h1 : hasPrefixStr s "AUDIT:" = true) (h2 : hasPrefixStr s auditPrefixStr = false) :
    processLine parse raw = .toAudit e
    ∧ lookupLabel (mkEntryLabels p c e) "auditType" = none
    ∧ lookupLabel (mkEntryLabels p c e) "auditClass" = none
    ∧ lookupLabel (mkEntryLabels p c e) "command" = none
    ∧ lookupLabel (mkEntryLabels p c e) "databaseId" = some (p ++ ":" ++ c)
    ∧ ∀ k v, lookupLabel (mkEntryLabels p c e) k = some v →
        (k = "databaseId" ∨ k = "user" ∨ k = "databaseName" ∨ k = "backendType") := by
  have hmsg : msgLabels e = [] := by
    unfold msgLabels auditMessageLabels
    rw [hm]
    simp [h2]
  refine ⟨?_, ?_, ?_, ?_, ?_, ?_⟩
  · unfold processLine
    rw [if_neg hne, hparse]
    simp [hm, h1]
  · simp [mkEntryLabels, lookupLabel, lookupLabel_append, lookupLabel_optLabel, hmsg]
  · simp [mkEntryLabels, lookupLabel, lookupLabel_append, lookupLabel_optLabel, hmsg]
  · simp [mkEntryLabels, lookupLabel, lookupLabel_append, lookupLabel_optLabel, hmsg]
  · simp [mkEntryLabels, lookupLabel]
  · intro k v h
    by_cases hk1 : ("databaseId" : String) = k
    · exact Or.inl hk1.symm
    by_cases hk2 : ("user" : String) = k
    · exact Or.inr (Or.inl hk2.symm)
    by_cases hk3 : ("databaseName" : String) = k
    · exact Or.inr (Or.inr (Or.inl hk3.symm))
    by_cases hk4 : ("backendType" : String) = k
    · exact Or.inr (Or.inr (Or.inr hk4.symm))
    simp [mkEntryLabels, lookupLabel, lookupLabel_append, lookupLabel_optLabel, hmsg,
      hk1, hk2, hk3, hk4] at h

/-- The C10 example entry: an audit message without the space after the colon. -/
def exEntryNoSpace : LogEntry :=
  [("message", JVal.str "AUDIT:SESSION,15,1,READ,SELECT")]

/-- A parse function producing the C10 example entry. -/
def parseNoSpace : String → Option LogEntry :=
  fun t => if t = "l10" then some exEntryNoSpace else none

/-- Application of audit_no_space_prefix_labels at the concrete no-space line. -/
theorem audit_no_space_prefix_labels_app :
    processLine parseNoSpace "l10" = .toAudit exEntryNoSpace
    ∧ lookupLabel (mkEntryLabels "proj" "cl" exEntryNoSpace) "auditType" = none
    ∧ lookupLabel (mkEntryLabels "proj" "cl" exEntryNoSpace) "auditClass" = none
    ∧ lookupLabel (mkEntryLabels "proj" "cl" exEntryNoSpace) "command" = none
    ∧ lookupLabel (mkEntryLabels "proj" "cl" exEntryNoSpace) "databaseId" =
        some ("proj" ++ ":" ++ "cl") := by
  have h := audit_no_space_prefix_labels parseNoSpace "proj" "cl" "l10" exEntryNoSpace
    "AUDIT:SESSION,15,1,READ,SELECT" (by decide) rfl rfl (by decide) (by decide)
  exact ⟨h.1, h.2.1, h.2.2.1, h.2.2.2.1, h.2.2.2.2.1⟩

/-- A filesystem whose stat fails with an error other than not-exist
(for example a permission error: the file exists but cannot be statted). -/
def statFailOther : String → StatResult := fun _ => .statError false

/-- C4 counterexample: with a previous observation and a stat failure that is
not file-missing, checkLogRotation returns true although none of the claimed
conditions (missing, identity change, size decrease) holds, so the claimed
biconditional is false at this input. -/
theorem checkLogRotation_missing_only_refuted :
    checkLogRotation statFailOther "pg.log" (some { size := 10, identity := 1 }) = true
    ∧ checkLogRotationClaimed statFailOther "pg.log"
        (some { size := 10, identity := 1 }) = false :=
  ⟨rfl, rfl⟩

/-- C4 amended: checkLogRotation returns true exactly when a previous
observation exists and stat of the path fails for any reason (the code does
not distinguish a missing file from other stat errors), the current identity
differs from the last observed one, or the current size is strictly smaller;
with no previous observation it returns false. -/
theorem checkLogRotation_true_iff_amended (statFn : String → StatResult)
    (filePath : String) (lastInfo : Option FileInfo) :
    checkLogRotation statFn filePath lastInfo = true ↔
      ∃ li, lastInfo = some li ∧
        ((∃ b, statFn filePath = .statError b) ∨
          ∃ cur, statFn filePath = .statOk cur ∧
            (sameFile li cur = false ∨ cur.size < li.size)) := by
  cases lastInfo with
  | none => simp [checkLogRotation]
  | some li =>
    cases hs : statFn filePath with
    | statError b => simp [checkLogRotation, hs]
    | statOk cur =>
      by_cases hsame : sameFile li cur
      · by_cases hsize : cur.size < li.size <;>
          simp [checkLogRotation, hs, hsame, hsize]
      · simp only [Bool.not_eq_true] at hsame
        simp [checkLogRotation, hs, hsame]

lemma lookForFilesGo_lookup : ∀ (ms : List String) (ts : List (String × Tailer)) (p : String),
    lookupTailer (lookForFilesGo ms ts).fst p =
      match lookupTailer ts p with
      | some t => some t
      | none => if p ∈ ms then some (NewTailer p) else none := by
  intro ms
  induction ms with
  | nil =>
    intro ts p
    cases h : lookupTailer ts p <;> simp [lookForFilesGo, h]
  | cons m ms ih =>
    intro ts p
    cases hm : lookupTailer ts m with
    | some t0 =>
      simp only [lookForFilesGo, hm]
      rw [ih ts p]
      cases hp : lookupTailer ts p with
      | some t => simp
      | none =>
        have hpm : p ≠ m := by
          intro h
          rw [h, hm] at hp
          cases hp
        simp [List.mem_cons, hpm]
    | none =>
      simp only [lookForFilesGo, hm]
      rw [ih ((m, NewTailer m) :: ts) p]
      by_cases hpm : p = m
      · subst hpm
        simp [lookupTailer, hm, List.mem_cons]
      · simp [lookupTailer, Ne.symm hpm, hpm, List.mem_cons]

lemma lookForFilesGo_spawned : ∀ (ms : List String) (ts : List (String × Tailer)) (p : String),
    p ∈ (lookForFilesGo ms ts).snd ↔ (p ∈ ms ∧ lookupTailer ts p = none) := by
  intro ms
  induction ms with
  | nil =>
    intro ts p
    simp [lookForFilesGo]
  | cons m ms ih =>
    intro ts p
    cases hm : lookupTailer ts m with
    | some t0 =>
      simp only [lookForFilesGo, hm]
      rw [ih ts p]
      constructor
      · rintro ⟨h1, h2⟩
        exact ⟨List.mem_cons_of_mem m h1, h2⟩
      · rintro ⟨h1, h2⟩
        rcases List.mem_cons.mp h1 with h | h
        · subst h
          rw [hm] at h2
          cases h2
        · exact ⟨h, h2⟩
    | none =>
      simp only [lookForFilesGo, List.mem_cons, hm]
      rw [ih ((m, NewTailer m) :: ts) p]
      by_cases hpm : p = m
      · subst hpm
        simp [hm]
      · simp [lookupTailer, Ne.symm hpm, hpm]

lemma tickerRun_lookup_isSome : ∀ (gss : List (List String)) (ts : List (String × Tailer))
    (p : String),
    (lookupTailer (tickerRun gss ts) p).isSome =
      ((lookupTailer ts p).isSome || gss.any (fun g => decide (p ∈ g))) := by
  intro gss
  induction gss with
  | nil =>
    intro ts p
    simp [tickerRun]
  | cons g gs ih =>
    intro ts p
    have hstep : (lookupTailer (lookForFilesGo g ts).fst p).isSome =
        ((lookupTailer ts p).isSome || decide (p ∈ g)) := by
      rw [lookForFilesGo_lookup g ts p]
      cases hp : lookupTailer ts p with
      | some t => simp
      | none => by_cases hmem : p ∈ g <;> simp [hmem]
    simp only [tickerRun, List.any_cons]
    rw [ih, hstep, Bool.or_assoc]

lemma openPhase_no_quit : ∀ k, (openPhase k).all (fun e => !(isQuitEvent e)) = true := by
  intro k
  induction k with
  | zero => rfl
  | succ k ih => simp_all [openPhase, isQuitEvent]

lemma openPhase_sleeps : ∀ k,
    (openPhase k).filter isSleepEvent = List.replicate k (TailEvent.sleep retryIntervalMs) := by
  intro k
  induction k with
  | zero => rfl
  | succ k ih => simp [openPhase, List.filter, isSleepEvent, ih, List.replicate_succ]

lemma lastEvent_cons_cons (a b : TailEvent) (rest : List TailEvent) :
    lastEvent (a :: b :: rest) = lastEvent (b :: rest) := rfl

lemma openPhase_lastEvent : ∀ k, lastEvent (openPhase k) = some TailEvent.opened := by
  intro k
  induction k with
  | zero => rfl
  | succ k ih =>
    rw [show openPhase (k + 1) =
      TailEvent.logOpenError :: TailEvent.sleep retryIntervalMs :: openPhase k from rfl]
    rw [lastEvent_cons_cons]
    cases hk : openPhase k with
    | nil => cases k <;> simp [openPhase] at hk
    | cons x xs =>
      rw [hk] at ih
      rw [lastEvent_cons_cons]
      exact ih

/-- C6: a failure to open or spawn the tailer for one matched file is never
fatal: the opening loop survives any number of consecutive open failures,
backing off by exactly one fixed-interval sleep per failure, reports nothing
on the quit channel, and opens at the first success; spawning tailers for glob
matches has no per-file failure path. -/
theorem open_retry_never_fatal (k : Nat) (paths : List String)
    (ts : List (String × Tailer)) :
    (openPhase k).all (fun e => !(isQuitEvent e)) = true
    ∧ (openPhase k).filter isSleepEvent = List.replicate k (TailEvent.sleep retryIntervalMs)
    ∧ retryIntervalMs = 5000
    ∧ lastEvent (openPhase k) = some TailEvent.opened
    ∧ (lookForFiles (GlobResult.globMatches paths) ts).isSome = true :=
  ⟨openPhase_no_quit k, openPhase_sleeps k, rfl, openPhase_lastEvent k, rfl⟩

/-- C7: when the fsnotify watcher cannot be established, Watch reports no
error on the quit channel; it enters the ticker fallback with the fixed
one-minute interval, and every tick re-resolves the glob and spawns a tailer
for exactly the matched paths not already tracked. -/
theorem watch_fallback_ticker (paths : List String) (ts : List (String × Tailer))
    (g : List String) (gs : List (List String)) (p : String) :
    watchSetup (GlobResult.globMatches paths) WatcherResult.watcherError ts =
      some (WatchMode.tickerMode newFileCheckIntervalMs, (lookForFilesGo paths ts).fst)
    ∧ newFileCheckIntervalMs = 60000
    ∧ tickerRun (g :: gs) ts = tickerRun gs (lookForFilesGo g ts).fst
    ∧ (p ∈ (lookForFilesGo g ts).snd ↔ (p ∈ g ∧ lookupTailer ts p = none)) :=
  ⟨rfl, rfl, rfl, lookForFilesGo_spawned g ts p⟩

/-- C8: one discovery invocation preserves every existing watch-set entry
unchanged, spawns a tailer exactly for the matched paths not already present
and adds them, and never removes an entry; over any sequence of invocations
the watch set is insertion-only: a path is tracked exactly when it was
tracked initially or matched in some invocation. -/
theorem watchset_insertion_only (ms : List String) (ts : List (String × Tailer))
    (p : String) (gss : List (List String)) :
    lookupTailer (lookForFilesGo ms ts).fst p =
      (match lookupTailer ts p with
       | some t => some t
       | none => if p ∈ ms then some (NewTailer p) else none)
    ∧ (p ∈ (lookForFilesGo ms ts).snd ↔ (p ∈ ms ∧ lookupTailer ts p = none))
    ∧ (lookupTailer (tickerRun gss ts) p).isSome =
        ((lookupTailer ts p).isSome || gss.any (fun g => decide (p ∈ g))) :=
  ⟨lookForFilesGo_lookup ms ts p, lookForFilesGo_spawned ms ts p,
    tickerRun_lookup_isSome gss ts p⟩
